import Mathlib

/-!
Verification of the Imoview → RD Station integration pipeline
(`integracao_imoview_rd.py`): a shallow embedding of the date parser,
record filter, record fetcher, event dispatcher and orchestrator,
with theorems settling the specification's claims.
-/

/-! ## JSON-like values (the loosely structured records of the source API) -/

inductive JValue where
  | str : String → JValue
  | num : Int → JValue
  | obj : List (String × JValue) → JValue
  | arr : List JValue → JValue
  | null : JValue

/-- Field lookup on a JSON object (`registro[campo]` / `'campo' in registro`). -/
def JValue.getField (v : JValue) (k : String) : Option JValue :=
  match v with
  | .obj kvs => kvs.lookup k
  | _ => none

/-- Python truthiness of a JSON value (`if registro[campo]:`). -/
def JValue.truthy (v : JValue) : Bool :=
  match v with
  | .str s => !s.isEmpty
  | .num n => n != 0
  | .obj kvs => !kvs.isEmpty
  | .arr l => !l.isEmpty
  | .null => false

/-! ## Datetimes

Python `datetime` objects are modelled by their six calendar fields;
comparison is lexicographic, realised through an injective numeric key
(fields produced by the parser are range-validated, so the key encoding
is order-faithful). -/

structure DateTime where
  year : Nat
  month : Nat
  day : Nat
  hour : Nat
  minute : Nat
  second : Nat
deriving DecidableEq, Repr

def DateTime.key (d : DateTime) : Nat :=
  ((((d.year * 13 + d.month) * 32 + d.day) * 24 + d.hour) * 60 + d.minute) * 60 + d.second

def DateTime.le (a b : DateTime) : Bool := a.key ≤ b.key

def DateTime.lt (a b : DateTime) : Bool := a.key < b.key

def isLeapYear (y : Nat) : Bool :=
  (y % 4 == 0 && y % 100 != 0) || (y % 400 == 0)

def daysInMonth (y m : Nat) : Nat :=
  if m = 2 then (if isLeapYear y then 29 else 28)
  else if m = 4 ∨ m = 6 ∨ m = 9 ∨ m = 11 then 30
  else 31

/-! ## `strptime` model

`datetime.datetime.strptime` restricted to the six formats the source
uses.  A format string is a list of tokens; numeric directives consume
digits greedily (`%Y` exactly four, the others one or two), literals
must match exactly, the whole input must be consumed, and the resulting
fields are validated against the calendar. -/

inductive FmtTok where
  | dirD | dirM | dirY | dirH | dirMin | dirS
  | lit : Char → FmtTok
deriving DecidableEq, Repr

/-- Fields accumulated while matching a format; `strptime` defaults. -/
structure RawFields where
  y : Nat
  mo : Nat
  d : Nat
  h : Nat
  mi : Nat
  s : Nat
deriving DecidableEq, Repr

def RawFields.default : RawFields := ⟨1900, 1, 1, 0, 0, 0⟩

/-- Take up to `maxW` leading digits (at least one); returns value, count and rest. -/
def takeDigits (maxW : Nat) (cs : List Char) (acc : Nat) (cnt : Nat) : Nat × Nat × List Char :=
  match maxW, cs with
  | 0, _ => (acc, cnt, cs)
  | _, [] => (acc, cnt, [])
  | w + 1, c :: rest =>
      if c.isDigit then takeDigits w rest (acc * 10 + (c.toNat - 48)) (cnt + 1)
      else (acc, cnt, c :: rest)

/-- Consume one numeric directive of maximal width `maxW` (exact width when `exact`). -/
def readNum (maxW : Nat) (exact : Bool) (cs : List Char) : Option (Nat × List Char) :=
  match takeDigits maxW cs 0 0 with
  | (v, cnt, rest) =>
      if cnt = 0 then none
      else if exact && cnt ≠ maxW then none
      else some (v, rest)

def runFmt : List FmtTok → List Char → RawFields → Option RawFields
  | [], [], acc => some acc
  | [], _ :: _, _ => none
  | .lit c :: toks, cs, acc =>
      match cs with
      | [] => none
      | c' :: rest => if c = c' then runFmt toks rest acc else none
  | .dirY :: toks, cs, acc =>
      match readNum 4 true cs with
      | some (v, rest) => runFmt toks rest { acc with y := v }
      | none => none
  | .dirM :: toks, cs, acc =>
      match readNum 2 false cs with
      | some (v, rest) => runFmt toks rest { acc with mo := v }
      | none => none
  | .dirD :: toks, cs, acc =>
      match readNum 2 false cs with
      | some (v, rest) => runFmt toks rest { acc with d := v }
      | none => none
  | .dirH :: toks, cs, acc =>
      match readNum 2 false cs with
      | some (v, rest) => runFmt toks rest { acc with h := v }
      | none => none
  | .dirMin :: toks, cs, acc =>
      match readNum 2 false cs with
      | some (v, rest) => runFmt toks rest { acc with mi := v }
      | none => none
  | .dirS :: toks, cs, acc =>
      match readNum 2 false cs with
      | some (v, rest) => runFmt toks rest { acc with s := v }
      | none => none

/-- Calendar validation performed by `datetime` construction. -/
def validateFields (f : RawFields) : Option DateTime :=
  if 1 ≤ f.y ∧ f.y ≤ 9999 ∧ 1 ≤ f.mo ∧ f.mo ≤ 12 ∧ 1 ≤ f.d ∧ f.d ≤ daysInMonth f.y f.mo
     ∧ f.h ≤ 23 ∧ f.mi ≤ 59 ∧ f.s ≤ 59 then
    some ⟨f.y, f.mo, f.d, f.h, f.mi, f.s⟩
  else none

def strptime (fmt : List FmtTok) (s : String) : Option DateTime :=
  match runFmt fmt s.data RawFields.default with
  | some f => validateFields f
  | none => none

/-- Format `"%d/%m/%Y %H:%M:%S"`. -/
def fmtDMY_HMS : List FmtTok :=
  [.dirD, .lit '/', .dirM, .lit '/', .dirY, .lit ' ', .dirH, .lit ':', .dirMin, .lit ':', .dirS]

/-- Format `"%d/%m/%Y %H:%M"`. -/
def fmtDMY_HM : List FmtTok :=
  [.dirD, .lit '/', .dirM, .lit '/', .dirY, .lit ' ', .dirH, .lit ':', .dirMin]

/-- Format `"%Y-%m-%d %H:%M:%S"`. -/
def fmtYMD_HMS : List FmtTok :=
  [.dirY, .lit '-', .dirM, .lit '-', .dirD, .lit ' ', .dirH, .lit ':', .dirMin, .lit ':', .dirS]

/-- Format `"%Y-%m-%d %H:%M"`. -/
def fmtYMD_HM : List FmtTok :=
  [.dirY, .lit '-', .dirM, .lit '-', .dirD, .lit ' ', .dirH, .lit ':', .dirMin]

/-- Format `"%d/%m/%Y"`. -/
def fmtDMY : List FmtTok := [.dirD, .lit '/', .dirM, .lit '/', .dirY]

/-- Format `"%Y-%m-%d"`. -/
def fmtYMD : List FmtTok := [.dirY, .lit '-', .dirM, .lit '-', .dirD]

/-! ## `parse_data` -/

/-- Membership of a character in a string (`c in data_str`). -/
def strContains (s : String) (c : Char) : Bool := s.data.contains c

/-- Length of a string, `len(data_str)` (source dates are ASCII, so characters = length). -/
def strLen (s : String) : Nat := s.data.length

/-- The `for date_format in formats_to_try` loop: first format that parses wins. -/
def tryFormats : List (List FmtTok) → String → Option DateTime
  | [], _ => none
  | f :: fs, s =>
      match strptime f s with
      | some d => some d
      | none => tryFormats fs s

/-- The date parser `parse_data(data_str)` from the source: content-driven
format selection, then first-match parsing; `none` when everything fails. -/
def parse_data (data_str : String) : Option DateTime :=
  if data_str.data.isEmpty then none
  else if strLen data_str > 10 && (strContains data_str ':' || strContains data_str ' ') then
    tryFormats [fmtDMY_HMS, fmtDMY_HM, fmtYMD_HMS, fmtYMD_HM] data_str
  else
    tryFormats [fmtDMY, fmtYMD] data_str

/-- The candidate-format list described by the spec's content-driven rule
(independent restatement, compared against `parse_data` in claim C5). -/
def parseCandidates (s : String) : List (List FmtTok) :=
  if strLen s > 10 ∧ (strContains s ':' ∨ strContains s ' ') then
    [fmtDMY_HMS, fmtDMY_HM, fmtYMD_HMS, fmtYMD_HM]
  else
    [fmtDMY, fmtYMD]

/-! ## Stage constants -/

def FASE_VISITA : Nat := 4
def FASE_PROPOSTA : Nat := 5
def FASE_VENDA : Nat := 6

/-! ## `filtrar_registros_por_data` -/

/-- Application of `parse_data` to a raw field value (`None` and non-strings parse to nothing). -/
def parseJV (v : JValue) : Option DateTime :=
  match v with
  | .str s => parse_data s
  | _ => none

/-- The update `if data_temp and (data_registro is None or data_temp > data_registro)`. -/
def updMax (acc : Option DateTime) (d : Option DateTime) : Option DateTime :=
  match d with
  | none => acc
  | some dd =>
      match acc with
      | none => some dd
      | some a => if DateTime.lt a dd then some dd else some a

/-- VISIT: `datavisita`, tried under two alternate spellings (key presence decides). -/
def dataVisitaCampo (registro : JValue) : Option DateTime :=
  match registro.getField "datavisita" with
  | some v => parseJV v
  | none =>
      match registro.getField "dataVisita" with
      | some v => parseJV v
      | none => none

/-- PROPOSAL: maximum over `datanegociacao` inside `imoveisproposta[*].negociacoes[*]`. -/
def dataPropostaCampo (registro : JValue) : Option DateTime :=
  match registro.getField "imoveisproposta" with
  | some (.arr ps) =>
      if ps.isEmpty then none
      else
        ps.foldl (fun acc proposta =>
          match proposta.getField "negociacoes" with
          | some (.arr ns) =>
              if ns.isEmpty then acc
              else
                ns.foldl (fun acc2 negociacao =>
                  match negociacao.getField "datanegociacao" with
                  | some v => updMax acc2 (parseJV v)
                  | none => acc2) acc
          | _ => acc) none
  | _ => none

/-- SALE: maximum over `datanegocio` inside `imoveisnegocio[*]`. -/
def dataVendaCampo (registro : JValue) : Option DateTime :=
  match registro.getField "imoveisnegocio" with
  | some (.arr ns) =>
      if ns.isEmpty then none
      else
        ns.foldl (fun acc negocio =>
          match negocio.getField "datanegocio" with
          | some v => updMax acc (parseJV v)
          | none => acc) none
  | _ => none

/-- The generic date-field fallback list of the source. -/
def data_campos : List String :=
  ["datainclusao", "dataInclusao", "data_inclusao",
   "dataalteracao", "dataAlteracao", "data_alteracao",
   "dataCadastro", "data"]

/-- The fallback loop: first field that is present, truthy and parseable wins. -/
def firstFieldDate : List String → JValue → Option DateTime
  | [], _ => none
  | campo :: rest, registro =>
      match registro.getField campo with
      | some v =>
          if v.truthy then
            match parseJV v with
            | some d => some d
            | none => firstFieldDate rest registro
          else firstFieldDate rest registro
      | none => firstFieldDate rest registro

/-- The value `data_registro` as computed by the body of the filter loop. -/
def dataDoRegistro (tipo_fase : Nat) (registro : JValue) : Option DateTime :=
  let especifica :=
    if tipo_fase = FASE_VISITA then dataVisitaCampo registro
    else if tipo_fase = FASE_PROPOSTA then dataPropostaCampo registro
    else if tipo_fase = FASE_VENDA then dataVendaCampo registro
    else none
  match especifica with
  | some d => some d
  | none => firstFieldDate data_campos registro

/-- The record filter `filtrar_registros_por_data(registros, data_corte,
tipo_fase)`: keep the records whose date is `>=` the cutoff. -/
def filtrar_registros_por_data (registros : List JValue) (data_corte : DateTime)
    (tipo_fase : Nat) : List JValue :=
  registros.filter (fun registro =>
    match dataDoRegistro tipo_fase registro with
    | some d => DateTime.le data_corte d
    | none => false)

/-! ### Spec-side restatement of the filter's date selection (claim C4) -/

/-- All parseable nested negotiation dates of a PROPOSAL record (spec wording). -/
def negotiationDates (registro : JValue) : List DateTime :=
  match registro.getField "imoveisproposta" with
  | some (.arr ps) =>
      ps.flatMap (fun proposta =>
        match proposta.getField "negociacoes" with
        | some (.arr ns) =>
            ns.filterMap (fun n => (n.getField "datanegociacao").bind parseJV)
        | _ => [])
  | _ => []

/-- All parseable nested deal-closing dates of a SALE record (spec wording). -/
def dealClosingDates (registro : JValue) : List DateTime :=
  match registro.getField "imoveisnegocio" with
  | some (.arr ns) =>
      ns.filterMap (fun n => (n.getField "datanegocio").bind parseJV)
  | _ => []

/-- One max step over an optional running maximum. -/
def maxStep (acc : Option DateTime) (d : DateTime) : Option DateTime :=
  match acc with
  | none => some d
  | some a => if DateTime.lt a d then some d else some a

/-- The latest date of a list, if any (spec: "taking the latest ... found"). -/
def latestDate (ds : List DateTime) : Option DateTime := ds.foldl maxStep none

/-- The "most-relevant date" of a record, in the spec's words. -/
def mostRelevantDate (tipo_fase : Nat) (registro : JValue) : Option DateTime :=
  let specific :=
    if tipo_fase = FASE_VISITA then dataVisitaCampo registro
    else if tipo_fase = FASE_PROPOSTA then latestDate (negotiationDates registro)
    else if tipo_fase = FASE_VENDA then latestDate (dealClosingDates registro)
    else none
  match specific with
  | some d => some d
  | none => firstFieldDate data_campos registro

/-! ## Event dispatcher (`enviar_evento_conversao`, `enviar_evento_legacy`)

The network is abstracted by an oracle giving the outcome (2xx success or
failure) of the POST each delivery tier would issue; the dispatcher also
returns the ordered trace of the requests it issued. -/

def RD_CONVERSIONS_URL : String := "https://api.rd.services/platform/events?event_type=conversion"

def RD_LEGACY_URL : String := "https://www.rdstation.com.br/api/1.3/conversions"

def IMOVIEW_BASE_URL : String := "https://api.imoview.com.br/Atendimento/RetornarAtendimentos"

/-- The `EVENTOS_CONVERSAO` stage-to-identifier mapping. -/
def EVENTOS_CONVERSAO (fase : Nat) : Option String :=
  if fase = FASE_VISITA then some "imoview-update_Visita"
  else if fase = FASE_PROPOSTA then some "imoview-update_Proposta"
  else if fase = FASE_VENDA then some "imoview-update_Venda"
  else none

/-- The three delivery tiers of the dispatcher. -/
inductive Tier where
  | novaApi | legacyJson | legacyForm
deriving DecidableEq, Repr

/-- One outbound POST as issued by the dispatcher (`requests.post` arguments:
no `timeout` keyword is passed anywhere in the source). -/
structure Attempt where
  tier : Tier
  url : String
  contentType : String
  payload : List (String × JValue)
  timeout : Option Nat

/-- Optional payload field, added only when truthy (`if midia:`). -/
def optFields (key : String) (v : Option JValue) : List (String × JValue) :=
  match v with
  | some x => if x.truthy then [(key, x)] else []
  | none => []

/-- The legacy-API payload (token, identifier, email, optional attribution). -/
def legacyPayload (tok evento email : String) (midia campanha : Option JValue) :
    List (String × JValue) :=
  [("token_rdstation", .str tok), ("identificador", .str evento), ("email", .str email)]
    ++ optFields "traffic_medium" midia ++ optFields "traffic_campaign" campanha

/-- The new-API payload (event type, family, nested conversion payload). -/
def novaPayload (evento email : String) (midia campanha : Option JValue) :
    List (String × JValue) :=
  [("event_type", .str "CONVERSION"), ("event_family", .str "CDP"),
   ("payload", .obj ([("conversion_identifier", .str evento), ("email", .str email)]
      ++ optFields "traffic_medium" midia ++ optFields "traffic_campaign" campanha))]

def novaAttempt (evento email : String) (midia campanha : Option JValue) : Attempt :=
  ⟨.novaApi, RD_CONVERSIONS_URL, "application/json",
   novaPayload evento email midia campanha, none⟩

def legacyJsonAttempt (tok evento email : String) (midia campanha : Option JValue) : Attempt :=
  ⟨.legacyJson, RD_LEGACY_URL, "application/json",
   legacyPayload tok evento email midia campanha, none⟩

def legacyFormAttempt (tok evento email : String) (midia campanha : Option JValue) : Attempt :=
  ⟨.legacyForm, RD_LEGACY_URL, "application/x-www-form-urlencoded",
   legacyPayload tok evento email midia campanha, none⟩

/-- The legacy sender `enviar_evento_legacy`: legacy JSON POST, then the
same payload form-encoded as last resort. -/
def enviar_evento_legacy (tok : String) (oracle : Tier → Bool) (email evento : String)
    (midia campanha : Option JValue) : Bool × List Attempt :=
  let a1 := legacyJsonAttempt tok evento email midia campanha
  if oracle .legacyJson then (true, [a1])
  else
    let a2 := legacyFormAttempt tok evento email midia campanha
    if oracle .legacyForm then (true, [a1, a2]) else (false, [a1, a2])

/-- The dispatcher `enviar_evento_conversao`: unknown stage fails with no
call; SALE goes directly to the legacy path; otherwise new API first,
legacy on failure. -/
def enviar_evento_conversao (tok : String) (oracle : Tier → Bool) (email : String)
    (tipo_fase : Nat) (midia campanha : Option JValue) : Bool × List Attempt :=
  match EVENTOS_CONVERSAO tipo_fase with
  | none => (false, [])
  | some evento =>
      if tipo_fase = FASE_VENDA then
        enviar_evento_legacy tok oracle email evento midia campanha
      else
        let a0 := novaAttempt evento email midia campanha
        if oracle .novaApi then (true, [a0])
        else
          let rest := enviar_evento_legacy tok oracle email evento midia campanha
          (rest.1, a0 :: rest.2)

/-! ## Record fetcher (`obter_dados_imoview`) -/

/-- Outcome of one GET to the Imoview endpoint: network/HTTP error
(`requests.exceptions.RequestException`, including non-2xx via
`raise_for_status`), JSON decoding error, or a decoded body. -/
inductive HttpResult where
  | netErr
  | jsonErr
  | ok : JValue → HttpResult

/-- The keyword arguments of the fetcher's `requests.get` call
(`params=`, `headers=`; no `timeout=`). -/
structure HttpCall where
  url : String
  params : List (String × Nat)
  timeout : Option Nat

def imoviewRequestArgs (fase pagina registros_por_pagina finalidade situacao : Nat) : HttpCall :=
  ⟨IMOVIEW_BASE_URL,
   [("numeroPagina", pagina), ("numeroRegistros", registros_por_pagina),
    ("finalidade", finalidade), ("situacao", situacao), ("fase", fase)], none⟩

/-- The field `data['lista']` when the response is a dict carrying a list there. -/
def getListaArr (d : JValue) : Option (List JValue) :=
  match d with
  | .obj kvs =>
      match kvs.lookup "lista" with
      | some (.arr l) => some l
      | _ => none
  | _ => none

/-- The total `data.get('totalRegistros', 0) if isinstance(data, dict) else 0`. -/
def totalRegistrosOf (d : JValue) : Nat :=
  match d with
  | .obj kvs =>
      match kvs.lookup "totalRegistros" with
      | some (.num n) => n.toNat
      | _ => 0
  | _ => 0

/-- How an additional page's result is merged (`dict` with `lista`,
bare list, anything else skipped). -/
def extractPageRecords (res : Option JValue) : List JValue :=
  match res with
  | some d =>
      match getListaArr d with
      | some l => l
      | none =>
          match d with
          | .arr l => l
          | _ => []
  | none => []

/-- The fetcher `obter_dados_imoview(fase, pagina, registros_por_pagina, ...)`: one GET
(first component of the oracle-indexed result), then, only on page 1 of a
dict-with-`lista` response whose server-reported total spans more than one
page, pages 2..min(5, ceil(total/page size)) are fetched recursively and
concatenated.  Also returns the ordered list of page numbers requested. -/
def obter_dados_imoview (oracle : Nat → HttpResult) (pagina registros_por_pagina : Nat) :
    Option JValue × List Nat :=
  match oracle pagina with
  | .netErr => (none, [pagina])
  | .jsonErr => (none, [pagina])
  | .ok data =>
      let total_registros := totalRegistrosOf data
      let max_paginas :=
        min 5 ((total_registros + registros_por_pagina - 1) / registros_por_pagina)
      if h : (getListaArr data).isSome ∧ pagina = 1 ∧ 1 < max_paginas then
        let results := (List.range' 2 (max_paginas - 1)).attach.map
          (fun p => obter_dados_imoview oracle p.1 registros_por_pagina)
        (some (.obj
          [("lista", .arr ((getListaArr data).getD []
              ++ results.flatMap (fun r => extractPageRecords r.1))),
           ("totalRegistros", .num (Int.ofNat total_registros))]),
         pagina :: results.flatMap (fun r => r.2))
      else (some data, [pagina])
termination_by (if pagina = 1 then 1 else 0)
decreasing_by
  simp_wf
  rcases h with ⟨-, h1, -⟩
  have h2 : 2 ≤ p.1 := (List.mem_range'_1.mp p.2).1
  subst h1
  simp [show p.1 ≠ 1 by omega]

/-! ## Pipeline orchestrator (`extrair_email`, `extrair_midia_campanha`,
`processar_dados`, the per-stage loop of `main`) -/

def email_campos : List String := ["email", "emailcontato", "email_contato", "emailCliente"]

/-- One email candidate check: present, truthy, and containing `'@'`. -/
def emailOk (s : String) : Bool := !s.isEmpty && s.data.contains '@'

/-- The fallback loop over alternate top-level email field spellings. -/
def firstEmailField : List String → JValue → Option String
  | [], _ => none
  | campo :: rest, negocio =>
      match negocio.getField campo with
      | some (.str s) => if emailOk s then some s else firstEmailField rest negocio
      | _ => firstEmailField rest negocio

/-- Email extraction `extrair_email`: nested `lead.email` first, then alternate spellings. -/
def extrair_email (negocio : JValue) : Option String :=
  let fromLead : Option String :=
    match negocio.getField "lead" with
    | some (.obj fields) =>
        match fields.lookup "email" with
        | some (.str s) => if emailOk s then some s else none
        | _ => none
    | _ => none
  match fromLead with
  | some e => some e
  | none => firstEmailField email_campos negocio

def midia_campos : List String := ["midia", "media", "origem", "source", "traffic_medium"]

def campanha_campos : List String := ["campanha", "campaign", "traffic_campaign"]

/-- First present and truthy field of an ordered fallback list. -/
def firstTruthyField : List String → JValue → Option JValue
  | [], _ => none
  | campo :: rest, negocio =>
      match negocio.getField campo with
      | some v => if v.truthy then some v else firstTruthyField rest negocio
      | none => firstTruthyField rest negocio

def extrair_midia_campanha (negocio : JValue) : Option JValue × Option JValue :=
  (firstTruthyField midia_campos negocio, firstTruthyField campanha_campos negocio)

/-- Per-run mutable state of `processar_dados`; `calls` and `idx` record the
dispatch attempts made (ghost instrumentation for the theorems). -/
structure RunState where
  contador : Nat
  contador_sem_email : Nat
  emails_processados : List String
  calls : List (String × Bool)
  idx : Nat

def initState : RunState := ⟨0, 0, [], [], 0⟩

/-- The dedup key, `f"{email}_{tipo_fase}"`. -/
def emailKey (email : String) (tipo_fase : Nat) : String :=
  email ++ "_" ++ toString tipo_fase

/-- One iteration of the record loop of `processar_dados`. -/
def procRecord (tok : String) (net : Nat → Tier → Bool) (tipo_fase : Nat)
    (st : RunState) (negocio : JValue) : RunState :=
  match extrair_email negocio with
  | none => { st with contador_sem_email := st.contador_sem_email + 1 }
  | some email =>
      if emailKey email tipo_fase ∈ st.emails_processados then st
      else
        let mc := extrair_midia_campanha negocio
        let envio := enviar_evento_conversao tok (net st.idx) email tipo_fase mc.1 mc.2
        let st1 := { st with idx := st.idx + 1, calls := st.calls ++ [(email, envio.1)] }
        if envio.1 then
          { st1 with contador := st1.contador + 1,
                     emails_processados := emailKey email tipo_fase :: st1.emails_processados }
        else st1

/-- Full state of `processar_dados`: shape checks, date filter, record loop. -/
def processar_core (tok : String) (net : Nat → Tier → Bool) (dados : Option JValue)
    (tipo_fase : Nat) (data_corte : DateTime) : RunState :=
  match dados with
  | none => initState
  | some v =>
      if !v.truthy then initState
      else
        match v with
        | .obj kvs =>
            match kvs.lookup "lista" with
            | some (.arr registros) =>
                (filtrar_registros_por_data registros data_corte tipo_fase).foldl
                  (procRecord tok net tipo_fase) initState
            | _ => initState
        | .arr registros =>
            (filtrar_registros_por_data registros data_corte tipo_fase).foldl
              (procRecord tok net tipo_fase) initState
        | _ => initState

/-- Return value of `processar_dados`: the count of successfully sent events. -/
def processar_dados (tok : String) (net : Nat → Tier → Bool) (dados : Option JValue)
    (tipo_fase : Nat) (data_corte : DateTime) : Nat :=
  (processar_core tok net dados tipo_fase data_corte).contador

def fases : List Nat := [FASE_VISITA, FASE_PROPOSTA, FASE_VENDA]

/-- The per-stage loop of `main`: fetch each stage (page 1, page size 20),
process, and sum the per-stage counters. -/
def mainTotal (tok : String) (httpO : Nat → Nat → HttpResult) (net : Nat → Nat → Tier → Bool)
    (data_corte : DateTime) : Nat :=
  (fases.map (fun fase =>
    processar_dados tok (net fase) (obter_dados_imoview (httpO fase) 1 20).1
      fase data_corte)).sum

/-- Dedup soundness predicate for a run's dispatch-call trace: once a call
for an email succeeded, no later call for that email occurs at all. -/
def noDupAfterSuccess : List String → List (String × Bool) → Bool
  | _, [] => true
  | sent, (e, r) :: rest =>
      if e ∈ sent then false
      else noDupAfterSuccess (if r then e :: sent else sent) rest

/-- Successful emails accumulated by a scan of the call trace. -/
def collectSent (sent : List String) : List (String × Bool) → List String
  | [] => sent
  | (e, r) :: rest => collectSent (if r then e :: sent else sent) rest

/-- Claim C9 as stated: every fetcher and dispatcher network call is issued
with a bounded (finite) timeout. -/
def everyCallHasBoundedTimeout : Prop :=
  (∀ fase pagina rpp fin sit,
    ((imoviewRequestArgs fase pagina rpp fin sit).timeout).isSome = true)
  ∧ (∀ (tok : String) (oracle : Tier → Bool) (email : String) (tipo_fase : Nat)
      (midia campanha : Option JValue) (a : Attempt),
      a ∈ (enviar_evento_conversao tok oracle email tipo_fase midia campanha).2 →
      a.timeout.isSome = true)

/-! ## Concrete data used by the witnesses, and the spec-modelled "since" fetch mode -/

/-- Concrete network oracle: the new API fails, the legacy tiers succeed. -/
def oracleNewFails : Tier → Bool :=
  fun t => match t with | .novaApi => false | _ => true

/-- A concrete record carrying only a nested lead email. -/
def recW : JValue := .obj [("lead", .obj [("email", .str "x@y.com")])]

/-- A network oracle on which every delivery tier fails. -/
def netFail : Nat → Tier → Bool := fun _ _ => false

/-- A dict-shaped page response carrying `lista` and `totalRegistros`. -/
def mkPage (l : List JValue) (t : Nat) : JValue :=
  .obj [("lista", .arr l), ("totalRegistros", .num (Int.ofNat t))]

/-- An oracle on which every Imoview request fails at the network level. -/
def httpAllErr : Nat → Nat → HttpResult := fun _ _ => .netErr

/-- A dispatcher network oracle (unused paths succeed). -/
def netW : Nat → Nat → Tier → Bool := fun _ _ _ => true

def corteW : DateTime := ⟨2024, 1, 1, 0, 0, 0⟩

/-- Zero-padding to two digits, as `strftime` does. -/
def pad2 (n : Nat) : String := if n < 10 then "0" ++ toString n else toString n

/-- Start-of-day formatted as a `"day/month/year hour:minute"` string. -/
def startOfDayStr (hoje : DateTime) : String :=
  pad2 hoje.day ++ "/" ++ pad2 hoje.month ++ "/" ++ toString hoje.year ++ " 00:00"

/-- The GET parameters of one "since"-mode request. -/
structure SinceRequest where
  fase : Nat
  numeroPagina : Nat
  numeroRegistros : Nat
  finalidade : Nat
  situacao : Nat
  dataInicio : String
deriving DecidableEq, Repr

def mkSinceRequest (fase pagina rpp : Nat) (hoje : DateTime) : SinceRequest :=
  ⟨fase, pagina, rpp, 2, 0, startOfDayStr hoje⟩

/-- Modelled from the spec: the repository's second fetcher variant —
`obter_dados_imoview` mode (b) of §4.2, which is not among the source files
under src/ — requests records with a server-side `dataInicio` parameter set
to start-of-day, detects a full page (returned count equals the requested
page size) and, if full, recursively fetches the next page, concatenating
results.  The oracle yields each page's record list (`none` = request
failure); `fuel` bounds the recursion depth of the model. -/
def obter_dados_desde (oracle : Nat → Option (List JValue)) (fase : Nat) (hoje : DateTime)
    (pagina rpp : Nat) : Nat → List JValue × List SinceRequest
  | 0 => ([], [])
  | fuel + 1 =>
      let req := mkSinceRequest fase pagina rpp hoje
      match oracle pagina with
      | none => ([], [req])
      | some regs =>
          if regs.length = rpp then
            let next := obter_dados_desde oracle fase hoje (pagina + 1) rpp fuel
            (regs ++ next.1, req :: next.2)
          else (regs, [req])

/-- Two full pages then a short one, page size 1. -/
def pagesW : Nat → List JValue := fun p => if p = 1 then [recW] else []

/-! # Theorems -/

/-! ### Helper lemmas: `tryFormats` and `parse_data` -/

theorem tryFormats_eq_none_iff (fs : List (List FmtTok)) (s : String) :
    tryFormats fs s = none ↔ ∀ f ∈ fs, strptime f s = none := by
  induction fs with
  | nil => simp [tryFormats]
  | cons f fs ih =>
      cases h : strptime f s with
      | none => simp [tryFormats, h, ih]
      | some d => simp [tryFormats, h]

theorem tryFormats_eq_some (fs : List (List FmtTok)) (s : String) (d : DateTime) :
    tryFormats fs s = some d → ∃ f ∈ fs, strptime f s = some d := by
  induction fs with
  | nil => simp [tryFormats]
  | cons f fs ih =>
      cases h : strptime f s with
      | none =>
          intro hh
          rcases ih (by simpa [tryFormats, h] using hh) with ⟨g, hg, hgs⟩
          exact ⟨g, by simp [hg], hgs⟩
      | some d' =>
          intro hh
          refine ⟨f, by simp, ?_⟩
          simp [tryFormats, h] at hh
          simp [h, hh]

theorem parse_data_eq_tryFormats (s : String) :
    parse_data s = tryFormats (parseCandidates s) s := by
  unfold parse_data parseCandidates
  by_cases he : s.data.isEmpty
  · have hd : s.data = [] := by simpa [List.isEmpty_iff] using he
    have hl : strLen s = 0 := by simp [strLen, hd]
    rw [if_pos he, if_neg (by omega)]
    simp [tryFormats, strptime, hd, fmtDMY, fmtYMD, runFmt, readNum, takeDigits]
  · rw [if_neg he]
    by_cases hc : strLen s > 10 ∧ (strContains s ':' ∨ strContains s ' ')
    · rw [if_pos (by simp [hc.1, hc.2]), if_pos hc]
    · rw [if_neg (by simpa using hc), if_neg hc]

/-- Claim C5: the date parser selects candidate formats by content (date+time
formats when the string is longer than 10 characters and contains a colon or
a space, date-only formats otherwise), returns the instant of the first
candidate format that parses, and returns absence when every candidate fails;
the four supported literals parse to their calendar instants and
"not-a-date" yields absence. -/
theorem claim_C5_parse_data :
    (parse_data "01/02/2024 10:30:00" = some ⟨2024, 2, 1, 10, 30, 0⟩)
  ∧ (parse_data "2024-02-01 10:30" = some ⟨2024, 2, 1, 10, 30, 0⟩)
  ∧ (parse_data "01/02/2024" = some ⟨2024, 2, 1, 0, 0, 0⟩)
  ∧ (parse_data "2024-02-01" = some ⟨2024, 2, 1, 0, 0, 0⟩)
  ∧ (parse_data "not-a-date" = none)
  ∧ (∀ s : String, parse_data s = none ↔ ∀ f ∈ parseCandidates s, strptime f s = none)
  ∧ (∀ (s : String) (d : DateTime),
      parse_data s = some d → ∃ f ∈ parseCandidates s, strptime f s = some d) := by
  refine ⟨by decide, by decide, by decide, by decide, by decide, ?_, ?_⟩
  · intro s
    rw [parse_data_eq_tryFormats]
    exact tryFormats_eq_none_iff (parseCandidates s) s
  · intro s d h
    rw [parse_data_eq_tryFormats] at h
    exact tryFormats_eq_some (parseCandidates s) s d h

/-- Witness for C5: the absence direction applied at a concrete unparsable
date-like string. -/
theorem claim_C5_parse_data_witness : parse_data "99/99/2024" = none :=
  (claim_C5_parse_data.2.2.2.2.2.1 "99/99/2024").mpr (by decide)

/-! ### Helper lemmas: the filter's running maximum vs the latest collected date -/

theorem updMax_none (a : Option DateTime) : updMax a none = a := rfl

theorem updMax_some (a : Option DateTime) (d : DateTime) : updMax a (some d) = maxStep a d := rfl

theorem inner_fold_filterMap (key : String) (ns : List JValue) (acc : Option DateTime) :
    ns.foldl (fun a n =>
      match n.getField key with
      | some v => updMax a (parseJV v)
      | none => a) acc
    = (ns.filterMap (fun n => (n.getField key).bind parseJV)).foldl maxStep acc := by
  induction ns generalizing acc with
  | nil => rfl
  | cons n ns ih =>
      cases h : n.getField key with
      | none => simp [List.foldl_cons, h, List.filterMap_cons, ih]
      | some v =>
          cases hp : parseJV v with
          | none => simp [List.foldl_cons, h, hp, List.filterMap_cons, updMax_none, ih]
          | some d => simp [List.foldl_cons, h, hp, List.filterMap_cons, updMax_some, ih]

theorem maxStep_eq_some (a : Option DateTime) (x : DateTime) :
    ∃ y, maxStep a x = some y ∧ DateTime.le x y = true
      ∧ (∀ a0, a = some a0 → DateTime.le a0 y = true)
      ∧ (y = x ∨ a = some y) := by
  cases a with
  | none => exact ⟨x, rfl, by simp [DateTime.le], by simp, Or.inl rfl⟩
  | some a0 =>
      by_cases h : DateTime.lt a0 x
      · refine ⟨x, by simp [maxStep, h], by simp [DateTime.le], ?_, Or.inl rfl⟩
        intro b hb
        cases hb
        simp [DateTime.le, DateTime.lt] at h ⊢
        omega
      · refine ⟨a0, by simp [maxStep, h], ?_, ?_, Or.inr rfl⟩
        · simp [DateTime.le, DateTime.lt] at h ⊢
          omega
        · intro b hb
          cases hb
          simp [DateTime.le]

theorem foldl_maxStep_spec (ds : List DateTime) (a : Option DateTime) (d : DateTime)
    (h : ds.foldl maxStep a = some d) :
    (d ∈ ds ∨ a = some d) ∧ (∀ x ∈ ds, DateTime.le x d = true)
      ∧ (∀ y, a = some y → DateTime.le y d = true) := by
  induction ds generalizing a with
  | nil =>
      refine ⟨Or.inr h, by simp, ?_⟩
      intro y hy
      rw [hy] at h
      cases h
      simp [DateTime.le]
  | cons x ds ih =>
      simp only [List.foldl_cons] at h
      rcases ih (maxStep a x) h with ⟨h1, h2, h3⟩
      rcases maxStep_eq_some a x with ⟨y, hy, hxy, hay, hyx⟩
      have hyd : DateTime.le y d = true := h3 y hy
      refine ⟨?_, ?_, ?_⟩
      · rcases h1 with hmem | heq
        · exact Or.inl (List.mem_cons_of_mem x hmem)
        · rw [hy] at heq
          injection heq with heq
          subst heq
          rcases hyx with rfl | ha
          · exact Or.inl (by simp)
          · exact Or.inr ha
      · intro z hz
        rcases List.mem_cons.mp hz with hzx | hzds
        · subst hzx
          simp [DateTime.le] at hxy hyd ⊢
          omega
        · exact h2 z hzds
      · intro b hb
        have hby := hay b hb
        simp [DateTime.le] at hby hyd ⊢
        omega

theorem latestDate_spec (ds : List DateTime) (d : DateTime) (h : latestDate ds = some d) :
    d ∈ ds ∧ ∀ x ∈ ds, DateTime.le x d = true := by
  rcases foldl_maxStep_spec ds none d h with ⟨h1, h2, _⟩
  rcases h1 with h1 | h1
  · exact ⟨h1, h2⟩
  · cases h1

theorem dataVendaCampo_eq (r : JValue) :
    dataVendaCampo r = latestDate (dealClosingDates r) := by
  unfold dataVendaCampo dealClosingDates latestDate
  cases hv : r.getField "imoveisnegocio" with
  | none => rfl
  | some v =>
      cases v with
      | arr ns =>
          cases ns with
          | nil => rfl
          | cons n ns' => simpa using inner_fold_filterMap "datanegocio" (n :: ns') none
      | str s => rfl
      | num n => rfl
      | obj kvs => rfl
      | null => rfl

theorem proposta_outer_fold (ps : List JValue) (acc : Option DateTime) :
    ps.foldl (fun acc2 proposta =>
      match proposta.getField "negociacoes" with
      | some (.arr ns) =>
          if ns.isEmpty then acc2
          else
            ns.foldl (fun acc3 negociacao =>
              match negociacao.getField "datanegociacao" with
              | some v => updMax acc3 (parseJV v)
              | none => acc3) acc2
      | _ => acc2) acc
    = (ps.flatMap (fun proposta =>
        match proposta.getField "negociacoes" with
        | some (.arr ns) =>
            ns.filterMap (fun n => (n.getField "datanegociacao").bind parseJV)
        | _ => [])).foldl maxStep acc := by
  induction ps generalizing acc with
  | nil => rfl
  | cons p ps ih =>
      simp only [List.foldl_cons, List.flatMap_cons, List.foldl_append]
      cases hv : p.getField "negociacoes" with
      | none => simp [ih]
      | some v =>
          cases v with
          | arr ns =>
              cases ns with
              | nil => simp [ih]
              | cons n ns' =>
                  simp only [List.isEmpty_cons, if_neg]
                  rw [inner_fold_filterMap "datanegociacao" (n :: ns') acc, ih]
                  simp
          | str s => simp [ih]
          | num n => simp [ih]
          | obj kvs => simp [ih]
          | null => simp [ih]

theorem dataPropostaCampo_eq (r : JValue) :
    dataPropostaCampo r = latestDate (negotiationDates r) := by
  unfold dataPropostaCampo negotiationDates latestDate
  cases hv : r.getField "imoveisproposta" with
  | none => rfl
  | some v =>
      cases v with
      | arr ps =>
          cases ps with
          | nil => rfl
          | cons p ps' => simpa using proposta_outer_fold (p :: ps') none
      | str s => rfl
      | num n => rfl
      | obj kvs => rfl
      | null => rfl

theorem dataDoRegistro_eq (tipo_fase : Nat) (r : JValue) :
    dataDoRegistro tipo_fase r = mostRelevantDate tipo_fase r := by
  unfold dataDoRegistro mostRelevantDate
  rw [dataPropostaCampo_eq, dataVendaCampo_eq]

/-- Claim C4: for every list of records, stage and cutoff, the filter returns
exactly the subset of records whose most-relevant date (latest parseable
nested negotiation date for PROPOSAL, latest nested deal-closing date for
SALE, generic first-present-and-parseable fallback otherwise) is ≥ the
cutoff; records with no parseable date are excluded, and the "latest" date
really is a maximum of the collected nested dates. -/
theorem claim_C4_record_filter :
    (∀ (registros : List JValue) (data_corte : DateTime) (tipo_fase : Nat),
      filtrar_registros_por_data registros data_corte tipo_fase =
        registros.filter (fun r =>
          match mostRelevantDate tipo_fase r with
          | some d => DateTime.le data_corte d
          | none => false))
  ∧ (∀ (ds : List DateTime) (d : DateTime),
      latestDate ds = some d → d ∈ ds ∧ ∀ x ∈ ds, DateTime.le x d = true) := by
  constructor
  · intro registros data_corte tipo_fase
    unfold filtrar_registros_por_data
    apply List.filter_congr
    intro r _
    rw [dataDoRegistro_eq]
  · exact latestDate_spec

/-- Witness for C4: the spec's §8 example, a PROPOSAL record with nested
negotiation dates 01/01/2024 and 15/01/2024 against cutoff 10/01/2024. -/
theorem claim_C4_record_filter_witness :
    latestDate [⟨2024, 1, 1, 0, 0, 0⟩, ⟨2024, 1, 15, 0, 0, 0⟩] = some ⟨2024, 1, 15, 0, 0, 0⟩
  ∧ (⟨2024, 1, 15, 0, 0, 0⟩ : DateTime) ∈ [⟨2024, 1, 1, 0, 0, 0⟩, ⟨2024, 1, 15, 0, 0, 0⟩]
  ∧ DateTime.le ⟨2024, 1, 1, 0, 0, 0⟩ ⟨2024, 1, 15, 0, 0, 0⟩ = true := by
  have h := claim_C4_record_filter.2 [⟨2024, 1, 1, 0, 0, 0⟩, ⟨2024, 1, 15, 0, 0, 0⟩]
    ⟨2024, 1, 15, 0, 0, 0⟩ (by decide)
  exact ⟨by decide, h.1, h.2 ⟨2024, 1, 1, 0, 0, 0⟩ (by decide)⟩

/-- Claim C2: for stage SALE the dispatcher never invokes the new-format
endpoint and its result (outcome and trace) is exactly the legacy path's
result for the mapped identifier `"imoview-update_Venda"`. -/
theorem claim_C2_sale_goes_legacy :
    ∀ (tok : String) (oracle : Tier → Bool) (email : String) (midia campanha : Option JValue),
      enviar_evento_conversao tok oracle email FASE_VENDA midia campanha
        = enviar_evento_legacy tok oracle email "imoview-update_Venda" midia campanha
    ∧ ((enviar_evento_conversao tok oracle email FASE_VENDA midia campanha).2.countP
        (fun a => a.url == RD_CONVERSIONS_URL)) = 0 := by
  intro tok oracle email midia campanha
  constructor
  · simp [enviar_evento_conversao, EVENTOS_CONVERSAO, FASE_VENDA, FASE_VISITA, FASE_PROPOSTA]
  · simp only [enviar_evento_conversao, EVENTOS_CONVERSAO, FASE_VENDA, FASE_VISITA, FASE_PROPOSTA]
    norm_num
    cases h1 : oracle .legacyJson <;> cases h2 : oracle .legacyForm <;>
      simp [enviar_evento_legacy, h1, h2, legacyJsonAttempt, legacyFormAttempt,
        List.countP_cons, RD_LEGACY_URL, RD_CONVERSIONS_URL]

/-- Claim C3: for stages VISIT and PROPOSAL the tiers are attempted in the
fixed order new-format JSON, legacy JSON (only after a new-format failure),
form-encoded legacy (only after a legacy JSON failure), stopping at the
first success; the overall result is the disjunction of the attempted
tiers' outcomes; the form-encoded attempt re-sends exactly the legacy JSON
payload; and for VISIT a new-endpoint failure yields exactly one
legacy-endpoint JSON call, carrying identifier `"imoview-update_Visita"`. -/
theorem claim_C3_tiered_fallback :
    ∀ (tok : String) (oracle : Tier → Bool) (email : String)
      (midia campanha : Option JValue) (tipo_fase : Nat),
      tipo_fase = FASE_VISITA ∨ tipo_fase = FASE_PROPOSTA →
      ((enviar_evento_conversao tok oracle email tipo_fase midia campanha).2.map
          (fun a => a.tier)
        = .novaApi :: (if oracle .novaApi then []
            else .legacyJson :: (if oracle .legacyJson then [] else [.legacyForm])))
    ∧ ((enviar_evento_conversao tok oracle email tipo_fase midia campanha).1
        = (oracle .novaApi || oracle .legacyJson || oracle .legacyForm))
    ∧ (((enviar_evento_conversao tok oracle email tipo_fase midia campanha).2.filter
          (fun a => a.tier == Tier.legacyForm)).map (fun a => a.payload)
        = if oracle .novaApi || oracle .legacyJson then []
          else ((enviar_evento_conversao tok oracle email tipo_fase midia campanha).2.filter
            (fun a => a.tier == Tier.legacyJson)).map (fun a => a.payload))
    ∧ (tipo_fase = FASE_VISITA →
        ((enviar_evento_conversao tok oracle email tipo_fase midia campanha).2.filter
            (fun a => a.url == RD_LEGACY_URL && a.contentType == "application/json")).map
            (fun a => a.payload.lookup "identificador")
          = if oracle .novaApi then [] else [some (.str "imoview-update_Visita")]) := by
  intro tok oracle email midia campanha tipo_fase hf
  have hV : ¬ (FASE_VISITA = FASE_VENDA) := by decide
  have hP : ¬ (FASE_PROPOSTA = FASE_VENDA) := by decide
  rcases hf with rfl | rfl <;>
    cases h1 : oracle .novaApi <;> cases h2 : oracle .legacyJson <;> cases h3 : oracle .legacyForm <;>
      simp [enviar_evento_conversao, enviar_evento_legacy, EVENTOS_CONVERSAO,
        FASE_VISITA, FASE_PROPOSTA, FASE_VENDA, h1, h2, h3,
        novaAttempt, legacyJsonAttempt, legacyFormAttempt, legacyPayload, novaPayload,
        RD_CONVERSIONS_URL, RD_LEGACY_URL, List.filter_cons, List.countP_cons, List.lookup]

/-- Witness for C3: with a failing new endpoint and a succeeding legacy
endpoint, stage VISIT issues exactly one legacy JSON call, and it carries
identifier `"imoview-update_Visita"`. -/
theorem claim_C3_tiered_fallback_witness :
    ((enviar_evento_conversao "tok" oracleNewFails "a@b.com" FASE_VISITA none none).2.filter
        (fun a => a.url == RD_LEGACY_URL && a.contentType == "application/json")).map
        (fun a => a.payload.lookup "identificador")
      = [some (.str "imoview-update_Visita")] := by
  have h := (claim_C3_tiered_fallback "tok" oracleNewFails "a@b.com" none none FASE_VISITA
    (Or.inl rfl)).2.2.2 rfl
  rw [h]
  rfl

/-- C9 counterexample: the claim "every network call is issued with a
bounded (finite) timeout" is false — the fetcher's GET (here at stage 4,
page 1, the defaults of the source) carries no timeout at all. -/
theorem claim_C9_counterexample : ¬ everyCallHasBoundedTimeout := by
  intro h
  have := h.1 4 1 20 2 0
  simp [imoviewRequestArgs] at this

/-- Claim C9, amended: no network call of the record fetcher or the event
dispatcher specifies any timeout: every `requests.get`/`requests.post`
is issued with `timeout = None`, so worst-case blocking is unbounded. -/
theorem claim_C9_amended_no_timeouts :
    (∀ fase pagina rpp fin sit, (imoviewRequestArgs fase pagina rpp fin sit).timeout = none)
  ∧ (∀ (tok : String) (oracle : Tier → Bool) (email : String) (tipo_fase : Nat)
      (midia campanha : Option JValue),
      ((enviar_evento_conversao tok oracle email tipo_fase midia campanha).2.countP
        (fun a => a.timeout.isSome)) = 0) := by
  constructor
  · intro fase pagina rpp fin sit
    rfl
  · intro tok oracle email tipo_fase midia campanha
    have hleg : ∀ evento, ((enviar_evento_legacy tok oracle email evento midia campanha).2.countP
        (fun a => a.timeout.isSome)) = 0 := by
      intro evento
      cases h2 : oracle .legacyJson <;> cases h3 : oracle .legacyForm <;>
        simp [enviar_evento_legacy, h2, h3, legacyJsonAttempt, legacyFormAttempt,
          List.countP_cons]
    unfold enviar_evento_conversao
    cases he : EVENTOS_CONVERSAO tipo_fase with
    | none => simp
    | some evento =>
        by_cases hv : tipo_fase = FASE_VENDA
        · simp [hv, hleg]
        · cases h1 : oracle .novaApi <;> cases h2 : oracle .legacyJson <;>
            cases h3 : oracle .legacyForm <;>
            simp [hv, h1, h2, h3, novaAttempt, List.countP_cons, enviar_evento_legacy,
              legacyJsonAttempt, legacyFormAttempt]

/-! ### Helper lemmas: dedup-set bookkeeping of the orchestrator -/

theorem emailKey_inj (e1 e2 : String) (fase : Nat)
    (h : emailKey e1 fase = emailKey e2 fase) : e1 = e2 := by
  unfold emailKey at h
  have hd := congrArg String.data h
  simp only [String.data_append] at hd
  simp only [List.append_assoc] at hd
  exact String.ext (List.append_cancel_right hd)

theorem mem_collectSent (l : List (String × Bool)) (sent : List String) (e : String) :
    e ∈ collectSent sent l ↔ e ∈ sent ∨ (e, true) ∈ l := by
  induction l generalizing sent with
  | nil => simp [collectSent]
  | cons c rest ih =>
      rcases c with ⟨e', r⟩
      cases r <;> simp [collectSent, ih, List.mem_cons, Prod.ext_iff] <;> tauto

theorem collectSent_append (sent : List String) (l1 l2 : List (String × Bool)) :
    collectSent sent (l1 ++ l2) = collectSent (collectSent sent l1) l2 := by
  induction l1 generalizing sent with
  | nil => rfl
  | cons c rest ih =>
      rcases c with ⟨e, r⟩
      simp only [List.cons_append, collectSent]
      exact ih _

theorem noDup_append (sent : List String) (l1 l2 : List (String × Bool)) :
    noDupAfterSuccess sent (l1 ++ l2)
      = (noDupAfterSuccess sent l1 && noDupAfterSuccess (collectSent sent l1) l2) := by
  induction l1 generalizing sent with
  | nil => simp [noDupAfterSuccess, collectSent]
  | cons c rest ih =>
      rcases c with ⟨e, r⟩
      by_cases he : e ∈ sent
      · simp [noDupAfterSuccess, he]
      · simp only [List.cons_append, noDupAfterSuccess, collectSent, if_neg he]
        exact ih _

theorem noDup_countP (l : List (String × Bool)) (sent : List String) (e : String)
    (h : noDupAfterSuccess sent l = true) :
    l.countP (fun c => c.1 == e && c.2) ≤ if e ∈ sent then 0 else 1 := by
  induction l generalizing sent with
  | nil => simp
  | cons c rest ih =>
      rcases c with ⟨e', r⟩
      simp only [noDupAfterSuccess] at h
      by_cases he' : e' ∈ sent
      · rw [if_pos he'] at h
        exact absurd h (by simp)
      · rw [if_neg he'] at h
        rw [List.countP_cons]
        by_cases hee : e' = e
        · subst hee
          cases r with
          | true =>
              have ihh := ih (e' :: sent) (by simpa using h)
              rw [if_pos (List.mem_cons_self e' sent)] at ihh
              have hp : ((e', true).1 == e' && (e', true).2) = true := by simp
              have h0 : rest.countP (fun c => c.1 == e' && c.2) = 0 := Nat.le_zero.mp ihh
              rw [hp, if_neg he']
              simp [h0]
          | false =>
              have ihh := ih sent (by simpa using h)
              have hp : ((e', false).1 == e' && (e', false).2) = false := by simp
              rw [hp]
              simpa using ihh
        · have hp : ((e', r).1 == e && (e', r).2) = false := by simp [hee]
          have ihh : rest.countP (fun c => c.1 == e && c.2) ≤ if e ∈ sent then 0 else 1 := by
            cases r with
            | false => simpa using ih sent (by simpa using h)
            | true =>
                have ihh0 := ih (e' :: sent) (by simpa using h)
                have hiff : (e ∈ e' :: sent) ↔ (e ∈ sent) := by
                  constructor
                  · intro hx
                    rcases List.mem_cons.mp hx with hx | hx
                    · exact absurd hx.symm hee
                    · exact hx
                  · exact fun hx => List.mem_cons_of_mem e' hx
                rwa [if_congr hiff rfl rfl] at ihh0
          rw [hp]
          simpa using ihh

/-- Invariant preserved by each record iteration: the dispatch trace is
dedup-sound and the dedup set holds exactly the successfully sent emails. -/
theorem procRecord_inv (tok : String) (net : Nat → Tier → Bool) (fase : Nat)
    (st : RunState) (negocio : JValue)
    (h1 : noDupAfterSuccess [] st.calls = true)
    (h2 : ∀ e, emailKey e fase ∈ st.emails_processados ↔ (e, true) ∈ st.calls) :
    noDupAfterSuccess [] (procRecord tok net fase st negocio).calls = true
  ∧ (∀ e, emailKey e fase ∈ (procRecord tok net fase st negocio).emails_processados
      ↔ (e, true) ∈ (procRecord tok net fase st negocio).calls) := by
  cases he : extrair_email negocio with
  | none =>
      simp only [procRecord, he]
      exact ⟨h1, h2⟩
  | some email =>
      by_cases hk : emailKey email fase ∈ st.emails_processados
      · simp only [procRecord, he, if_pos hk]
        exact ⟨h1, h2⟩
      · simp only [procRecord, he, if_neg hk]
        have hnot : (email, true) ∉ st.calls := fun hc => hk ((h2 email).mpr hc)
        have hfresh : email ∉ collectSent [] st.calls := by
          rw [mem_collectSent]
          rintro (hx | hx)
          · cases hx
          · exact hnot hx
        set b := (enviar_evento_conversao tok (net st.idx) email fase
          (extrair_midia_campanha negocio).1 (extrair_midia_campanha negocio).2).1 with hb
        have hnd : noDupAfterSuccess [] (st.calls ++ [(email, b)]) = true := by
          rw [noDup_append]
          simp only [h1, Bool.true_and]
          simp [noDupAfterSuccess, hfresh]
        cases hB : b with
        | true =>
            rw [hB] at hnd
            refine ⟨by simpa using hnd, ?_⟩
            intro e
            simp only [if_true, List.append_eq, List.mem_cons, List.mem_append,
              List.mem_singleton]
            constructor
            · rintro (hx | hx)
              · exact Or.inr (Or.inl (by rw [emailKey_inj e email fase hx]))
              · exact Or.inl ((h2 e).mp hx)
            · rintro (hx | hx | hx)
              · exact Or.inr ((h2 e).mpr hx)
              · injection hx with hx1 _
                exact Or.inl (by rw [hx1])
              · cases hx
        | false =>
            rw [hB] at hnd
            refine ⟨by simpa using hnd, ?_⟩
            intro e
            simp only [Bool.false_eq_true, if_false, List.append_eq, List.mem_append,
              List.mem_singleton]
            constructor
            · intro hx
              exact Or.inl ((h2 e).mp hx)
            · rintro (hx | hx)
              · exact (h2 e).mpr hx
              · cases hx

theorem foldl_procRecord_inv (tok : String) (net : Nat → Tier → Bool) (fase : Nat)
    (records : List JValue) (st : RunState)
    (h1 : noDupAfterSuccess [] st.calls = true)
    (h2 : ∀ e, emailKey e fase ∈ st.emails_processados ↔ (e, true) ∈ st.calls) :
    noDupAfterSuccess [] ((records.foldl (procRecord tok net fase) st).calls) = true
  ∧ ∀ e, emailKey e fase ∈ (records.foldl (procRecord tok net fase) st).emails_processados
      ↔ (e, true) ∈ (records.foldl (procRecord tok net fase) st).calls := by
  induction records generalizing st with
  | nil => exact ⟨h1, h2⟩
  | cons negocio rest ih =>
      rcases procRecord_inv tok net fase st negocio h1 h2 with ⟨g1, g2⟩
      simpa only [List.foldl_cons] using ih (procRecord tok net fase st negocio) g1 g2

theorem processar_core_inv (tok : String) (net : Nat → Tier → Bool) (dados : Option JValue)
    (tipo_fase : Nat) (data_corte : DateTime) :
    noDupAfterSuccess [] ((processar_core tok net dados tipo_fase data_corte).calls) = true := by
  have hinit1 : noDupAfterSuccess [] (initState.calls) = true := rfl
  have hinit2 : ∀ e, emailKey e tipo_fase ∈ initState.emails_processados
      ↔ (e, true) ∈ initState.calls := by
    intro e
    simp [initState]
  unfold processar_core
  cases dados with
  | none => rfl
  | some v =>
      by_cases ht : v.truthy
      · cases v with
        | obj kvs =>
            cases hl : kvs.lookup "lista" with
            | none => simpa [ht, hl] using hinit1
            | some lv =>
                cases lv with
                | arr registros =>
                    simp only [ht, hl, Bool.not_true, if_false]
                    exact (foldl_procRecord_inv tok net tipo_fase _ initState hinit1 hinit2).1
                | str s => simpa [ht, hl] using hinit1
                | num n => simpa [ht, hl] using hinit1
                | obj kvs2 => simpa [ht, hl] using hinit1
                | null => simpa [ht, hl] using hinit1
        | arr registros =>
            simp only [ht, Bool.not_true, if_false]
            exact (foldl_procRecord_inv tok net tipo_fase _ initState hinit1 hinit2).1
        | str s => simpa [ht] using hinit1
        | num n => simpa [ht] using hinit1
        | null => simpa [ht] using hinit1
      · have : v.truthy = false := by simpa using ht
        simp [this]
        cases v <;> rfl

/-- Claim C1: within one run and one stage, once an event was sent
successfully for an email, no later dispatch call is made for that email
(the record is skipped before any attempt), and at most one successful
conversion event is dispatched per distinct email. -/
theorem claim_C1_per_run_dedup :
    ∀ (tok : String) (net : Nat → Tier → Bool) (dados : Option JValue)
      (tipo_fase : Nat) (data_corte : DateTime),
      noDupAfterSuccess [] ((processar_core tok net dados tipo_fase data_corte).calls) = true
    ∧ ∀ e : String,
        ((processar_core tok net dados tipo_fase data_corte).calls.countP
          (fun c => c.1 == e && c.2)) ≤ 1 := by
  intro tok net dados tipo_fase data_corte
  refine ⟨processar_core_inv tok net dados tipo_fase data_corte, ?_⟩
  intro e
  have h := noDup_countP _ [] e (processar_core_inv tok net dados tipo_fase data_corte)
  simpa using h

/-- Claim C10: a failed dispatch leaves the per-run state unchanged for that
record — the sent counter is not incremented, the dedup key is not
recorded, only a failed call is traced — so a later record with the same
email at the same stage triggers a fresh dispatch attempt instead of
being skipped. -/
theorem claim_C10_failed_dispatch :
    ∀ (tok : String) (net : Nat → Tier → Bool) (fase : Nat) (st : RunState)
      (n1 n2 : JValue) (e : String),
      extrair_email n1 = some e →
      extrair_email n2 = some e →
      emailKey e fase ∉ st.emails_processados →
      (enviar_evento_conversao tok (net st.idx) e fase
        (extrair_midia_campanha n1).1 (extrair_midia_campanha n1).2).1 = false →
      (procRecord tok net fase st n1).contador = st.contador
    ∧ (procRecord tok net fase st n1).emails_processados = st.emails_processados
    ∧ (procRecord tok net fase st n1).calls = st.calls ++ [(e, false)]
    ∧ (procRecord tok net fase (procRecord tok net fase st n1) n2).calls
        = (st.calls ++ [(e, false)])
          ++ [(e, (enviar_evento_conversao tok (net (st.idx + 1)) e fase
              (extrair_midia_campanha n2).1 (extrair_midia_campanha n2).2).1)] := by
  intro tok net fase st n1 n2 e he1 he2 hk hfail
  have hst1 : procRecord tok net fase st n1
      = { st with idx := st.idx + 1, calls := st.calls ++ [(e, false)] } := by
    simp only [procRecord, he1, if_neg hk, hfail]
    simp [hfail]
  refine ⟨by rw [hst1], by rw [hst1], by rw [hst1], ?_⟩
  rw [hst1]
  simp only [procRecord, he2]
  rw [if_neg hk]
  cases hb : (enviar_evento_conversao tok (net (st.idx + 1)) e fase
      (extrair_midia_campanha n2).1 (extrair_midia_campanha n2).2).1 <;>
    simp [hb]

/-- Witness for C10: two copies of the same record, every tier failing —
the first failed dispatch changes no state and the second record is
attempted afresh. -/
theorem claim_C10_failed_dispatch_witness :
    (procRecord "tok" netFail 4 initState recW).contador = initState.contador
  ∧ (procRecord "tok" netFail 4 initState recW).emails_processados
      = initState.emails_processados
  ∧ (procRecord "tok" netFail 4 (procRecord "tok" netFail 4 initState recW) recW).calls
      = (initState.calls ++ [("x@y.com", false)])
        ++ [("x@y.com", (enviar_evento_conversao "tok" (netFail (initState.idx + 1)) "x@y.com" 4
            (extrair_midia_campanha recW).1 (extrair_midia_campanha recW).2).1)] := by
  have h := claim_C10_failed_dispatch "tok" netFail 4 initState recW recW "x@y.com"
    (by decide) (by decide) (by simp [initState]) (by decide)
  exact ⟨h.1, h.2.1, h.2.2.2⟩

/-! ### Helper lemmas: fetcher pagination -/

theorem obter_ne_one (oracle : Nat → HttpResult) (rpp p : Nat) (hp : p ≠ 1) :
    obter_dados_imoview oracle p rpp
      = (match oracle p with
         | .ok d => (some d, [p])
         | .netErr => (none, [p])
         | .jsonErr => (none, [p])) := by
  unfold obter_dados_imoview
  cases ho : oracle p with
  | netErr => rfl
  | jsonErr => rfl
  | ok data =>
      simp only []
      rw [dif_neg (fun hcond => hp hcond.2.1)]

theorem obter_trace_ne_one (oracle : Nat → HttpResult) (rpp p : Nat) (hp : p ≠ 1) :
    (obter_dados_imoview oracle p rpp).2 = [p] := by
  rw [obter_ne_one oracle rpp p hp]
  cases oracle p <;> rfl

theorem obter_err (oracle : Nat → HttpResult) (rpp pagina : Nat)
    (h : oracle pagina = .netErr ∨ oracle pagina = .jsonErr) :
    obter_dados_imoview oracle pagina rpp = (none, [pagina]) := by
  unfold obter_dados_imoview
  rcases h with h | h <;> rw [h]

theorem getListaArr_mkPage (l : List JValue) (t : Nat) : getListaArr (mkPage l t) = some l := by
  simp [getListaArr, mkPage, List.lookup]

theorem totalRegistrosOf_mkPage (l : List JValue) (t : Nat) :
    totalRegistrosOf (mkPage l t) = t := by
  simp [totalRegistrosOf, mkPage, List.lookup]

theorem range'_one_eq (m : Nat) (hm : 1 ≤ m) :
    List.range' 1 m = 1 :: List.range' 2 (m - 1) := by
  cases m with
  | zero => omega
  | succ k => simp [List.range'_succ]

theorem flatMap_singleton_id (l : List Nat) : l.flatMap (fun p => [p]) = l := by
  simp

theorem obter_uniform_pages (Ls : Nat → List JValue) (T : Nat) :
    obter_dados_imoview (fun p => .ok (mkPage (Ls p) T)) 1 20
      = (some (mkPage (Ls 1 ++ (List.range' 2 (min 5 ((T + 19) / 20) - 1)).flatMap Ls) T),
         List.range' 1 (max 1 (min 5 ((T + 19) / 20)))) := by
  have hne : ∀ p, p ≠ 1 → obter_dados_imoview (fun q => HttpResult.ok (mkPage (Ls q) T)) p 20
      = (some (mkPage (Ls p) T), [p]) := by
    intro p hp
    rw [obter_ne_one _ 20 p hp]
  have hE : T + 20 - 1 = T + 19 := rfl
  unfold obter_dados_imoview
  simp only [getListaArr_mkPage, totalRegistrosOf_mkPage, Option.isSome_some, Option.getD_some]
  by_cases hm : 1 < min 5 ((T + 19) / 20)
  · rw [dif_pos ⟨trivial, trivial, by rw [hE]; exact hm⟩]
    have hmapgen : ∀ n, (List.range' 2 n).attach.map
        (fun p => obter_dados_imoview (fun p => HttpResult.ok (mkPage (Ls p) T)) p.1 20)
        = (List.range' 2 n).map
            (fun p => ((some (mkPage (Ls p) T), [p]) : Option JValue × List Nat)) := by
      intro n
      have h1 : (List.range' 2 n).attach.map
          (fun p => obter_dados_imoview (fun p => HttpResult.ok (mkPage (Ls p) T)) p.1 20)
          = (List.range' 2 n).attach.map
            (fun p => ((some (mkPage (Ls p.1) T), [p.1])
              : Option JValue × List Nat)) := by
        apply List.map_congr_left
        intro x _
        have hx1 : (x : Nat) ≠ 1 := by
          have := (List.mem_range'_1.mp x.2).1
          omega
        exact hne x.1 hx1
      rw [h1, List.attach_map_val (List.range' 2 n)
        (fun v => ((some (mkPage (Ls v) T), [v]) : Option JValue × List Nat))]
    rw [hmapgen, List.flatMap_map, List.flatMap_map]
    simp only [extractPageRecords, getListaArr_mkPage, totalRegistrosOf_mkPage, hE]
    rw [flatMap_singleton_id, ← range'_one_eq _ (by omega), Nat.max_eq_right (by omega)]
    rfl
  · rw [dif_neg (fun hcond => hm (by rw [← hE]; exact hcond.2.2))]
    have hm0 : min 5 ((T + 19) / 20) - 1 = 0 := by omega
    have hmax : max 1 (min 5 ((T + 19) / 20)) = 1 := by omega
    rw [hm0, hmax]
    simp [mkPage]

theorem obter_len_le_five (oracle : Nat → HttpResult) :
    ((obter_dados_imoview oracle 1 20).2).length ≤ 5 := by
  unfold obter_dados_imoview
  cases ho : oracle 1 with
  | netErr => simp
  | jsonErr => simp
  | ok data =>
      simp only []
      split
      case isTrue hc =>
        have htr : ∀ n, (((List.range' 2 n).attach.map
            (fun p => obter_dados_imoview oracle p.1 20)).flatMap (fun r => r.2))
            = List.range' 2 n := by
          intro n
          rw [List.flatMap_map]
          have h1 : (List.range' 2 n).attach.flatMap
              (fun p => (obter_dados_imoview oracle p.1 20).2)
              = (List.range' 2 n).attach.flatMap (fun p => [p.1]) := by
            rw [List.flatMap_def, List.flatMap_def]
            have h2 : (List.range' 2 n).attach.map
                (fun p => (obter_dados_imoview oracle p.1 20).2)
                = (List.range' 2 n).attach.map (fun p => [p.1]) := by
              apply List.map_congr_left
              intro x _
              have hx1 : (x : Nat) ≠ 1 := by
                have := (List.mem_range'_1.mp x.2).1
                omega
              exact obter_trace_ne_one oracle 20 x.1 hx1
            rw [h2]
          rw [h1, List.flatMap_def, List.attach_map_val (List.range' 2 n) (fun v => [v]),
            ← List.flatMap_def]
          exact flatMap_singleton_id (List.range' 2 n)
        rw [htr]
        simp only [List.length_cons, List.length_range']
        omega
      case isFalse hc => simp

/-- Claim C7: a no-date-filter fetch starting at page 1 (page size 20, the
source defaults) requests pages 1 through min(5, ceil(total/page size)) —
hence at most 5 pages for any oracle — returns the pages' record lists
concatenated in page order together with the server-reported total, and a
nested per-page fetch (page ≥ 2) performs exactly its own single request,
never recursing further. -/
theorem claim_C7_bounded_pagination :
    (∀ (Ls : Nat → List JValue) (T : Nat),
      obter_dados_imoview (fun p => .ok (mkPage (Ls p) T)) 1 20
        = (some (mkPage (Ls 1 ++ (List.range' 2 (min 5 ((T + 19) / 20) - 1)).flatMap Ls) T),
           List.range' 1 (max 1 (min 5 ((T + 19) / 20)))))
  ∧ (∀ oracle : Nat → HttpResult, ((obter_dados_imoview oracle 1 20).2).length ≤ 5)
  ∧ (∀ (oracle : Nat → HttpResult) (rpp k : Nat),
      (obter_dados_imoview oracle (k + 2) rpp).2 = [k + 2]) := by
  refine ⟨obter_uniform_pages, obter_len_le_five, ?_⟩
  intro oracle rpp k
  exact obter_trace_ne_one oracle rpp (k + 2) (by omega)

/-- Claim C6: a network, HTTP-status or JSON failure makes the fetcher return
the no-data sentinel instead of raising, the orchestrator counts that stage
as zero records sent, and the remaining stages are still processed with
their counts unchanged. -/
theorem claim_C6_error_isolation :
    ∀ (tok : String) (o1 o2 : Nat → Nat → HttpResult) (net : Nat → Nat → Tier → Bool)
      (corte : DateTime) (f0 : Nat),
      (f0 = FASE_VISITA ∨ f0 = FASE_PROPOSTA ∨ f0 = FASE_VENDA) →
      (∀ f, f ≠ f0 → ∀ p, o2 f p = o1 f p) →
      (o2 f0 1 = .netErr ∨ o2 f0 1 = .jsonErr) →
      (obter_dados_imoview (o2 f0) 1 20).1 = none
    ∧ processar_dados tok (net f0) (obter_dados_imoview (o2 f0) 1 20).1 f0 corte = 0
    ∧ mainTotal tok o2 net corte
        = ((fases.filter (fun f => f ≠ f0)).map (fun fase =>
            processar_dados tok (net fase) (obter_dados_imoview (o1 fase) 1 20).1
              fase corte)).sum := by
  intro tok o1 o2 net corte f0 hf0 hagree herr
  have h1 : (obter_dados_imoview (o2 f0) 1 20).1 = none := by
    rw [obter_err (o2 f0) 20 1 herr]
  have h2 : processar_dados tok (net f0) (obter_dados_imoview (o2 f0) 1 20).1 f0 corte = 0 := by
    rw [h1]
    rfl
  refine ⟨h1, h2, ?_⟩
  have hoeq : ∀ f, f ≠ f0 → o2 f = o1 f := fun f hf => funext (hagree f hf)
  rcases hf0 with rfl | rfl | rfl
  · have e5 : o2 FASE_PROPOSTA = o1 FASE_PROPOSTA := hoeq _ (by decide)
    have e6 : o2 FASE_VENDA = o1 FASE_VENDA := hoeq _ (by decide)
    simp only [mainTotal, fases, List.map_cons, List.map_nil, List.sum_cons, List.sum_nil,
      List.filter]
    rw [e5, e6, h2]
    simp [FASE_VISITA, FASE_PROPOSTA, FASE_VENDA]
  · have e4 : o2 FASE_VISITA = o1 FASE_VISITA := hoeq _ (by decide)
    have e6 : o2 FASE_VENDA = o1 FASE_VENDA := hoeq _ (by decide)
    simp only [mainTotal, fases, List.map_cons, List.map_nil, List.sum_cons, List.sum_nil,
      List.filter]
    rw [e4, e6, h2]
    simp [FASE_VISITA, FASE_PROPOSTA, FASE_VENDA]
  · have e4 : o2 FASE_VISITA = o1 FASE_VISITA := hoeq _ (by decide)
    have e5 : o2 FASE_PROPOSTA = o1 FASE_PROPOSTA := hoeq _ (by decide)
    simp only [mainTotal, fases, List.map_cons, List.map_nil, List.sum_cons, List.sum_nil,
      List.filter]
    rw [e4, e5, h2]
    simp [FASE_VISITA, FASE_PROPOSTA, FASE_VENDA]

/-- Witness for C6: with every request failing at stage VISIT, the fetch is
the sentinel, the stage counts zero, and the total is the other stages' sum. -/
theorem claim_C6_error_isolation_witness :
    (obter_dados_imoview (httpAllErr FASE_VISITA) 1 20).1 = none
  ∧ processar_dados "tok" (netW FASE_VISITA)
      (obter_dados_imoview (httpAllErr FASE_VISITA) 1 20).1 FASE_VISITA corteW = 0
  ∧ mainTotal "tok" httpAllErr netW corteW
      = ((fases.filter (fun f => f ≠ FASE_VISITA)).map (fun fase =>
          processar_dados "tok" (netW fase) (obter_dados_imoview (httpAllErr fase) 1 20).1
            fase corteW)).sum :=
  claim_C6_error_isolation "tok" httpAllErr httpAllErr netW corteW FASE_VISITA
    (Or.inl rfl) (fun f hf p => rfl) (Or.inl rfl)

/-! ## Spec-modelled "since" fetch mode (claim C8) -/

theorem since_requests_dataInicio (oracle : Nat → Option (List JValue)) (fase : Nat)
    (hoje : DateTime) (rpp fuel : Nat) : ∀ pagina,
    ∀ r ∈ (obter_dados_desde oracle fase hoje pagina rpp fuel).2,
      r.dataInicio = startOfDayStr hoje := by
  induction fuel with
  | zero =>
      intro pagina r hr
      simp [obter_dados_desde] at hr
  | succ fl ih =>
      intro pagina r hr
      simp only [obter_dados_desde] at hr
      cases ho : oracle pagina with
      | none =>
          simp only [ho, List.mem_singleton] at hr
          rw [hr]
          rfl
      | some regs =>
          simp only [ho] at hr
          by_cases hfull : regs.length = rpp
          · rw [if_pos hfull] at hr
            rcases List.mem_cons.mp hr with rfl | hr2
            · rfl
            · exact ih (pagina + 1) r hr2
          · rw [if_neg hfull] at hr
            simp only [List.mem_singleton] at hr
            rw [hr]
            rfl

theorem obter_desde_pages (fase : Nat) (hoje : DateTime) (pages : Nat → List JValue)
    (rpp : Nat) : ∀ (k start fuel : Nat),
    (∀ i, i < k → (pages (start + i)).length = rpp) →
    (pages (start + k)).length ≠ rpp →
    k < fuel →
    obter_dados_desde (fun p => some (pages p)) fase hoje start rpp fuel
      = ((List.range' start (k + 1)).flatMap pages,
         (List.range' start (k + 1)).map (fun p => mkSinceRequest fase p rpp hoje)) := by
  intro k
  induction k with
  | zero =>
      intro start fuel hfull hstop hfuel
      cases fuel with
      | zero => omega
      | succ fl =>
          simp only [obter_dados_desde]
          rw [if_neg (by simpa using hstop)]
          simp [List.range'_succ]
  | succ k ih =>
      intro start fuel hfull hstop hfuel
      cases fuel with
      | zero => omega
      | succ fl =>
          have h0 : (pages start).length = rpp := by simpa using hfull 0 (by omega)
          simp only [obter_dados_desde]
          rw [if_pos h0]
          have hrec := ih (start + 1) fl
            (fun i hi => by
              have := hfull (i + 1) (by omega)
              simpa [Nat.add_assoc, Nat.add_comm 1 i] using this)
            (by
              have : start + 1 + k = start + (k + 1) := by omega
              rw [this]
              exact hstop)
            (by omega)
          rw [hrec]
          simp [List.range'_succ]

/-- Claim C8, spec-modelled: the second server-side filter mode requests
records with a since parameter equal to start-of-day on every page request,
detects a full page (returned count = requested page size) and then
recursively fetches and concatenates the next page: with pages
`start..start+k` full and page `start+k` short, the fetch returns the
concatenation of pages `start..start+k` and issues exactly those requests,
in order. -/
theorem claim_C8_since_filter_mode :
    (∀ (oracle : Nat → Option (List JValue)) (fase : Nat) (hoje : DateTime)
      (rpp fuel pagina : Nat),
      ∀ r ∈ (obter_dados_desde oracle fase hoje pagina rpp fuel).2,
        r.dataInicio = startOfDayStr hoje)
  ∧ (∀ (fase : Nat) (hoje : DateTime) (pages : Nat → List JValue) (rpp k start fuel : Nat),
      (∀ i, i < k → (pages (start + i)).length = rpp) →
      (pages (start + k)).length ≠ rpp →
      k < fuel →
      obter_dados_desde (fun p => some (pages p)) fase hoje start rpp fuel
        = ((List.range' start (k + 1)).flatMap pages,
           (List.range' start (k + 1)).map (fun p => mkSinceRequest fase p rpp hoje))) :=
  ⟨fun oracle fase hoje rpp fuel => since_requests_dataInicio oracle fase hoje rpp fuel,
   fun fase hoje pages rpp k => obter_desde_pages fase hoje pages rpp k⟩

/-- Witness for C8: page 1 is full (1 record, page size 1), page 2 is
short, so exactly pages 1 and 2 are requested and concatenated. -/
theorem claim_C8_since_filter_mode_witness :
    obter_dados_desde (fun p => some (pagesW p)) 4 corteW 1 1 3
      = ((List.range' 1 2).flatMap pagesW,
         (List.range' 1 2).map (fun p => mkSinceRequest 4 p 1 corteW)) :=
  claim_C8_since_filter_mode.2 4 corteW pagesW 1 1 1 3
    (by decide) (by decide) (by decide)
